import Mathlib

set_option maxRecDepth 100000

/-!
Verification of the core numeric transforms of `metenergy_data.py`
(pypsa-entsoe): the wind capacity-factor conversion, the regression-based
demand model, the solar capacity-factor model, and the weekly hydropower
inflow reconstruction.  Real numbers of the Python code are modelled by
rationals; pandas/numpy time series by lists.
-/

namespace Metenergy

/-! ## Wind capacity-factor conversion (`_convert_to_windpower`)

The power curve is the list of `(ws, cf)` pairs read from the curve CSV.
`np.interp(x, xp, fp)` is embedded as `np_interp` (piecewise-linear
interpolation, clamping to the first/last `fp` value outside the domain of
`xp`, which numpy requires to be increasing). -/

/-- Embedding of `np.interp(x, xp, fp)` on a curve given as `(x, y)` pairs:
left of the first knot it returns the first `y`, on a segment it
interpolates linearly, past the last knot it returns the last `y`. -/
def np_interp (x : ℚ) : List (ℚ × ℚ) → ℚ
  | [] => 0
  | [(_, y0)] => y0
  | (x0, y0) :: (x1, y1) :: rest =>
    if x ≤ x0 then y0
    else if x ≤ x1 then y0 + (y1 - y0) * (x - x0) / (x1 - x0)
    else np_interp x ((x1, y1) :: rest)

/-- `pc_winds = np.linspace(0, 50, 501)`: point `i` of the grid is
`0 + (50 - 0) * i / 500`. -/
def pc_winds (i : ℕ) : ℚ := 50 * i / 500

/-- `pc_power = np.interp(pc_winds, power_curve_w, power_curve_p)`:
the interpolated capacity factor at grid point `i`. -/
def pc_power (curve : List (ℚ × ℚ)) (i : ℕ) : ℚ := np_interp (pc_winds i) curve

/-- `np.digitize(v, pc_winds, right=False)` for the increasing grid
`pc_winds`: the number of grid points `≤ v` (equivalently, the index `i`
with `pc_winds (i-1) ≤ v < pc_winds i`). -/
def digitize (v : ℚ) : ℕ :=
  (List.range 501).countP (fun i => decide (pc_winds i ≤ v))

/-- One element of `_convert_to_windpower`: digitize the wind speed,
clamp index `501` down to `500` (`test[test == len(pc_winds)] = 500`), and
return `0.5 * (pc_power[test-1] + pc_power[test])`.  When `test = 0`
(negative wind speed) the numpy index `test - 1 = -1` wraps to the LAST
element of `pc_power`, i.e. index `500`. -/
def convert_one (curve : List (ℚ × ℚ)) (v : ℚ) : ℚ :=
  let t := digitize v
  let t2 := if t = 501 then 500 else t
  let lo := if t2 = 0 then 500 else t2 - 1
  (pc_power curve lo + pc_power curve t2) / 2

/-- `_convert_to_windpower` over a flattened wind-speed series. -/
def convert_to_windpower (curve : List (ℚ × ℚ)) (ws : List ℚ) : List ℚ :=
  ws.map (convert_one curve)

/-- A small concrete power curve used as a test fixture: capacity factor 0 at
wind speed 0, rising linearly to 1 at wind speed 50. -/
def demoCurve : List (ℚ × ℚ) := [(0, 0), (50, 1)]

/-! ## Demand regression model (`get_demand_met`)

A timestamp of the `DatetimeIndex` is modelled by the two attributes the
code reads from it, `hour` and `dayofweek`.  The coefficient `pd.Series`
is a list of `(label, value)` pairs. -/

/-- The calendar attributes of one timestamp. -/
structure Stamp where
  hour : ℕ
  dayofweek : ℕ

/-- Embedding of `(cond) * 1`, the one-hot indicator used for the calendar
predictor columns. -/
def ind (b : Prop) [Decidable b] : ℚ := if b then 1 else 0

/-- The predictor columns of the DataFrame `x` (lines 59-82) at one
timestamp: the column labels and values, in order, including the misspelt
Friday column `wzoneday05` and the constant `holTRUE = 0` column. -/
def features (st : Stamp) (t s : ℚ) : List (String × ℚ) :=
  [("cool", if t < 24 then 0 else t - 24),
   ("heat", if t > 15 then 0 else 15 - t),
   ("ssrd", s),
   ("hour01", ind (st.hour = 1)), ("hour02", ind (st.hour = 2)), ("hour03", ind (st.hour = 3)),
   ("hour04", ind (st.hour = 4)), ("hour05", ind (st.hour = 5)), ("hour06", ind (st.hour = 6)),
   ("hour07", ind (st.hour = 7)), ("hour08", ind (st.hour = 8)), ("hour09", ind (st.hour = 9)),
   ("hour10", ind (st.hour = 10)), ("hour11", ind (st.hour = 11)), ("hour12", ind (st.hour = 12)),
   ("hour13", ind (st.hour = 13)), ("hour14", ind (st.hour = 14)), ("hour15", ind (st.hour = 15)),
   ("hour16", ind (st.hour = 16)), ("hour17", ind (st.hour = 17)), ("hour18", ind (st.hour = 18)),
   ("hour19", ind (st.hour = 19)), ("hour20", ind (st.hour = 20)), ("hour21", ind (st.hour = 21)),
   ("hour22", ind (st.hour = 22)), ("hour23", ind (st.hour = 23)),
   ("wday01", ind (st.dayofweek = 0)), ("wday02", ind (st.dayofweek = 1)),
   ("wday03", ind (st.dayofweek = 2)), ("wday04", ind (st.dayofweek = 3)),
   ("wzoneday05", ind (st.dayofweek = 4)),
   ("wday06", ind (st.dayofweek = 5)), ("wday07", ind (st.dayofweek = 6)),
   ("holTRUE", 0)]

/-- Label lookup in the coefficient Series (first match wins, as in a pandas
index with unique labels). -/
def lookupQ (n : String) : List (String × ℚ) → Option ℚ
  | [] => none
  | p :: ps => if p.1 = n then some p.2 else lookupQ n ps

/-- `(x * coefs).sum(axis=1)` at one timestamp: pandas aligns the coefficient
Series with the feature columns by label; a column with no matching
coefficient (and a coefficient with no matching column) becomes NaN, which
the default `skipna` sum treats as 0. -/
def normLoad (coefs : List (String × ℚ)) (fs : List (String × ℚ)) : ℚ :=
  (fs.map (fun p =>
    match lookupQ p.1 coefs with
    | some c => p.2 * c
    | none => 0)).sum

/-- `tmp.min()` of a series. -/
def seriesMin : List ℚ → Option ℚ
  | [] => none
  | x :: xs => some (xs.foldl min x)

/-- The Kelvin heuristic (lines 53-54 and 185-186): if the minimum of the
temperature series exceeds 200 the whole series is shifted by `-273.15`. -/
def kShift (tmp : List ℚ) : List ℚ :=
  match seriesMin tmp with
  | some m => if 200 < m then tmp.map (fun x => x - 273.15) else tmp
  | none => tmp

/-- The demand regression after the Kelvin guard: per timestamp,
`norm_load * (max_load - min_load) + min_load` (lines 56-86). -/
def demandCore (tmp ssr : List ℚ) (stamps : List Stamp) (coefs : List (String × ℚ))
    (min_load max_load : ℚ) : List ℚ :=
  ((tmp.zip ssr).zip stamps).map
    (fun p => normLoad coefs (features p.2 p.1.1 p.1.2) * (max_load - min_load) + min_load)

/-- `get_demand_met`: Kelvin guard, then the regression. -/
def get_demand_met (tmp ssr : List ℚ) (stamps : List Stamp) (coefs : List (String × ℚ))
    (min_load max_load : ℚ) : List ℚ :=
  demandCore (kShift tmp) ssr stamps coefs min_load max_load

/-! ## Solar capacity-factor model (`get_PV_cf`) -/

/-- Reference temperature (line 191). -/
def T_ref : ℚ := 25

/-- Reference efficiency (line 192). -/
def eff_ref : ℚ := 0.9

/-- Temperature coefficient (line 193). -/
def beta_ref : ℚ := 0.0042

/-- Reference irradiance (line 194). -/
def G_ref : ℚ := 1000

/-- One timestamp of lines 196-198:
`eff_ref * (1 - beta_ref * (tmp - T_ref)) * (ssr / G_ref)`.
`np.nan_to_num` is the identity here since rationals have no NaN. -/
def pv_cf_point (t s : ℚ) : ℚ := eff_ref * (1 - beta_ref * (t - T_ref)) * (s / G_ref)

/-- The solar model after the Kelvin guard. -/
def pvCore (tmp ssr : List ℚ) : List ℚ :=
  (tmp.zip ssr).map (fun p => pv_cf_point p.1 p.2)

/-- `get_PV_cf`: Kelvin guard, then the physical formula per timestamp. -/
def get_PV_cf (tmp ssr : List ℚ) : List ℚ := pvCore (kShift tmp) ssr

/-! ## Hydropower inflow reconstruction (`get_inflow_entsoe`, lines 250-251) -/

/-- `Series.diff()`: first entry NaN (`none`), entry `i` is `s[i] - s[i-1]`. -/
def pd_diff : List ℚ → List (Option ℚ)
  | [] => []
  | x :: xs => none :: List.zipWith (fun b a => some (b - a)) xs (x :: xs)

/-- `Series.shift(-1)`: entry `i` becomes entry `i+1`, the last entry NaN. -/
def pd_shift_m1 : List (Option ℚ) → List (Option ℚ)
  | [] => []
  | _ :: xs => xs ++ [none]

/-- Lines 250-251 of `get_inflow_entsoe`, applied to the grouped table:
`lagged = storage.diff().shift(-1)` and `inflow = generation + lagged`
(NaN propagates through the addition).  `gen` is the group-summed weekly
generation column and `sto` the storage column over the same periods. -/
def inflow_calc (gen sto : List ℚ) : List (Option ℚ) :=
  List.zipWith (fun g d => d.map (fun x => g + x)) gen (pd_shift_m1 (pd_diff sto))

/-! ### Helper lemmas about the grid and digitization -/

lemma pc_winds_mono {i j : ℕ} (h : i ≤ j) : pc_winds i ≤ pc_winds j := by
  unfold pc_winds
  have hij : (i : ℚ) ≤ j := by exact_mod_cast h
  linarith

lemma countP_range_iff (p : ℕ → Bool) (hp : ∀ i j : ℕ, i ≤ j → p j = true → p i = true) :
    ∀ n i, i < n → (p i = true ↔ i < (List.range n).countP p) := by
  intro n
  induction n with
  | zero => intro i hi; exact absurd hi (Nat.not_lt_zero i)
  | succ n ih =>
    intro i hi
    rw [List.range_succ, List.countP_append]
    by_cases hpn : p n = true
    · have hall : (List.range n).countP p = n := by
        have h1 := List.countP_eq_length.mpr
          (fun a ha => hp a n (Nat.le_of_lt (List.mem_range.mp ha)) hpn)
        simpa using h1
      have hi' : i ≤ n := Nat.lt_succ_iff.mp hi
      simp only [hall, List.countP_cons, List.countP_nil, hpn, if_true]
      exact iff_of_true (hp i n hi' hpn) (by omega)
    · have hn : (List.range n).countP p ≤ n := by
        simpa using List.countP_le_length (p := p) (l := List.range n)
      have hpn' : p n = false := by simpa using hpn
      simp only [List.countP_cons, List.countP_nil, hpn', Bool.false_eq_true, if_false,
        Nat.zero_add, Nat.add_zero]
      rcases Nat.lt_or_ge i n with h | h
      · simpa using ih i h
      · have hin : i = n := by omega
        subst hin
        exact iff_of_false (by simp [hpn']) (by omega)

lemma digitize_le_501 (v : ℚ) : digitize v ≤ 501 := by
  have := List.countP_le_length (p := fun i => decide (pc_winds i ≤ v)) (l := List.range 501)
  simpa [digitize] using this

lemma digitize_iff (v : ℚ) (i : ℕ) (hi : i < 501) : pc_winds i ≤ v ↔ i < digitize v := by
  have h := countP_range_iff (fun i => decide (pc_winds i ≤ v))
    (fun i j hij hj => by
      simp only [decide_eq_true_iff] at hj ⊢
      exact le_trans (pc_winds_mono hij) hj) 501 i hi
  simpa [digitize] using h

lemma digitize_pos (v : ℚ) (h : 0 ≤ v) : 1 ≤ digitize v := by
  have h0 : pc_winds 0 ≤ v := by simpa [pc_winds] using h
  have := (digitize_iff v 0 (by norm_num)).mp h0
  omega

lemma digitize_le_500 (v : ℚ) (h : v < 50) : digitize v ≤ 500 := by
  by_contra h'
  push_neg at h'
  have h50 : pc_winds 500 ≤ v := (digitize_iff v 500 (by norm_num)).mpr (by omega)
  rw [show pc_winds 500 = 50 by norm_num [pc_winds]] at h50
  linarith

lemma digitize_of_ge_50 (v : ℚ) (h : 50 ≤ v) : digitize v = 501 := by
  have hall : ∀ a ∈ List.range 501, (fun i => decide (pc_winds i ≤ v)) a = true := by
    intro a ha
    have ha' : a ≤ 500 := by have := List.mem_range.mp ha; omega
    simp only [decide_eq_true_iff]
    calc pc_winds a ≤ pc_winds 500 := pc_winds_mono ha'
    _ = 50 := by norm_num [pc_winds]
    _ ≤ v := h
  have := List.countP_eq_length.mpr hall
  simpa [digitize] using this

lemma digitize_lower (v : ℚ) (h : 1 ≤ digitize v) : pc_winds (digitize v - 1) ≤ v := by
  have hle := digitize_le_501 v
  exact (digitize_iff v (digitize v - 1) (by omega)).mpr (by omega)

lemma digitize_upper (v : ℚ) (h : digitize v ≤ 500) : v < pc_winds (digitize v) := by
  by_contra h'
  push_neg at h'
  have := (digitize_iff v (digitize v) (by omega)).mp h'
  omega

lemma digitize_neg (v : ℚ) (h : v < 0) : digitize v = 0 := by
  by_contra h'
  have h1 : 0 < digitize v := Nat.pos_of_ne_zero h'
  have h0 : pc_winds 0 ≤ v := (digitize_iff v 0 (by norm_num)).mpr h1
  rw [show pc_winds 0 = 0 by norm_num [pc_winds]] at h0
  linarith

lemma digitize_zero : digitize 0 = 1 := by
  have h1 : 1 ≤ digitize 0 := digitize_pos 0 le_rfl
  have h2 : digitize 0 ≤ 1 := by
    by_contra h'
    push_neg at h'
    have := (digitize_iff 0 1 (by norm_num)).mpr h'
    rw [show pc_winds 1 = 1/10 by norm_num [pc_winds]] at this
    linarith
  omega

lemma np_interp_left (x x0 y0 : ℚ) (rest : List (ℚ × ℚ)) (h : x ≤ x0) :
    np_interp x ((x0, y0) :: rest) = y0 := by
  cases rest with
  | nil => rfl
  | cons q rest =>
    obtain ⟨x1, y1⟩ := q
    simp only [np_interp]
    rw [if_pos h]

lemma chain_head_le_last :
    ∀ (l : List (ℚ × ℚ)) (q z : ℚ × ℚ),
      List.Chain' (fun a b => a.1 < b.1) (q :: l) → (q :: l).getLast? = some z →
      q.1 ≤ z.1 := by
  intro l
  induction l with
  | nil =>
    intro q z _ hz
    simp only [List.getLast?_singleton, Option.some_inj] at hz
    subst hz
    exact le_rfl
  | cons r l ih =>
    intro q z hc hz
    rw [List.getLast?_cons_cons] at hz
    have h1 : q.1 < r.1 := (List.chain'_cons.mp hc).1
    have h2 := ih r z (List.chain'_cons.mp hc).2 hz
    linarith

lemma np_interp_right :
    ∀ (curve : List (ℚ × ℚ)) (x xl yl : ℚ),
      List.Chain' (fun a b => a.1 < b.1) curve →
      curve.getLast? = some (xl, yl) → xl ≤ x →
      np_interp x curve = yl := by
  intro curve
  induction curve with
  | nil => intro x xl yl _ h _; simp at h
  | cons p l ih =>
    intro x xl yl hc hlast hx
    cases l with
    | nil =>
      obtain ⟨px, py⟩ := p
      simp only [List.getLast?_singleton, Option.some_inj, Prod.mk.injEq] at hlast
      rw [← hlast.2]
      rfl
    | cons q l' =>
      obtain ⟨x0, y0⟩ := p
      obtain ⟨x1, y1⟩ := q
      have hlast' : ((x1, y1) :: l').getLast? = some (xl, yl) := by
        rw [← List.getLast?_cons_cons (a := (x0, y0))]
        exact hlast
      have hch := List.chain'_cons.mp hc
      have h01 : x0 < x1 := hch.1
      have h1l : x1 ≤ xl := by
        simpa using chain_head_le_last l' (x1, y1) (xl, yl) hch.2 hlast'
      have hx0 : ¬ x ≤ x0 := by linarith
      cases l' with
      | nil =>
        simp only [List.getLast?_singleton, Option.some_inj, Prod.mk.injEq] at hlast'
        obtain ⟨hxe, hye⟩ := hlast'
        subst hxe
        subst hye
        simp only [np_interp]
        rw [if_neg hx0]
        by_cases hx1 : x ≤ x1
        · have hxx : x = x1 := le_antisymm hx1 hx
          rw [if_pos hx1, hxx]
          have hne : x1 - x0 ≠ 0 := sub_ne_zero.mpr (ne_of_gt h01)
          field_simp
        · rw [if_neg hx1]
      | cons r l'' =>
        have hch2 := List.chain'_cons.mp hch.2
        have hrl : r.1 ≤ xl := by
          have hlast'' : (r :: l'').getLast? = some (xl, yl) := by
            rw [← List.getLast?_cons_cons (a := (x1, y1))]
            exact hlast'
          simpa using chain_head_le_last l'' r (xl, yl) hch2.2 hlast''
        have h1lt : x1 < xl := lt_of_lt_of_le hch2.1 hrl
        have hx1 : ¬ x ≤ x1 := by linarith
        simp only [np_interp]
        rw [if_neg hx0, if_neg hx1]
        exact ih x xl yl hch.2 hlast' hx

lemma convert_one_midpoint (curve : List (ℚ × ℚ)) (v : ℚ) (h : 0 ≤ v) :
    convert_one curve v =
      (pc_power curve (min 500 (digitize v) - 1) + pc_power curve (min 500 (digitize v))) / 2 := by
  have h1 : 1 ≤ digitize v := digitize_pos v h
  have h2 : digitize v ≤ 501 := digitize_le_501 v
  rcases eq_or_ne (digitize v) 501 with he | he
  · simp [convert_one, he]
  · have hmin : min 500 (digitize v) = digitize v := by omega
    have hne : digitize v ≠ 0 := by omega
    simp [convert_one, he, hmin, hne]

lemma pc_power_demo_0 : pc_power demoCurve 0 = 0 := by
  norm_num [pc_power, pc_winds, demoCurve, np_interp]

lemma pc_power_demo_1 : pc_power demoCurve 1 = 1 / 500 := by
  norm_num [pc_power, pc_winds, demoCurve, np_interp]

lemma pc_power_demo_499 : pc_power demoCurve 499 = 499 / 500 := by
  norm_num [pc_power, pc_winds, demoCurve, np_interp]

lemma pc_power_demo_500 : pc_power demoCurve 500 = 1 := by
  norm_num [pc_power, pc_winds, demoCurve, np_interp]

lemma np_interp_demo_at_0 : np_interp 0 demoCurve = 0 := by
  norm_num [demoCurve, np_interp]

lemma demoCurve_sorted : List.Chain' (fun p q : ℚ × ℚ => p.1 < q.1) demoCurve := by
  refine List.chain'_cons.mpr ⟨by norm_num, ?_⟩
  exact List.chain'_singleton _

lemma demoCurve_getLast : demoCurve.getLast? = some (50, 1) := rfl

lemma convert_one_demo_0 : convert_one demoCurve 0 = 1 / 1000 := by
  simp only [convert_one, digitize_zero]
  norm_num [pc_power_demo_0, pc_power_demo_1]

lemma convert_one_demo_50 : convert_one demoCurve 50 = 999 / 1000 := by
  simp only [convert_one, digitize_of_ge_50 50 le_rfl]
  norm_num [pc_power_demo_499, pc_power_demo_500]

/-- Claim C1: for every wind-speed observation `v`, the wind conversion builds
a grid of 501 evenly spaced points from 0 to 50 with capacity factors linearly
interpolated from the supplied power curve (clamping to the curve's first/last
value outside its domain), locates `v`'s bin by right-open digitization
(`grid[i-1] ≤ v < grid[i]`, observations at or above the top of the grid
clamped to the last bin), and returns the average of the grid capacity-factor
values at the bin's lower and upper edges — a midpoint of bin edges, not plain
linear interpolation. -/
theorem C1_wind_conversion :
    (pc_winds 0 = 0 ∧ pc_winds 500 = 50 ∧
      ∀ i, i < 500 → pc_winds (i + 1) - pc_winds i = 1 / 10) ∧
    (∀ curve i, pc_power curve i = np_interp (pc_winds i) curve) ∧
    (∀ (x x0 y0 : ℚ) (rest : List (ℚ × ℚ)), x ≤ x0 →
      np_interp x ((x0, y0) :: rest) = y0) ∧
    (∀ (curve : List (ℚ × ℚ)) (x xl yl : ℚ),
      List.Chain' (fun p q => p.1 < q.1) curve →
      curve.getLast? = some (xl, yl) → xl ≤ x → np_interp x curve = yl) ∧
    (∀ v : ℚ, 0 ≤ v → v < 50 →
      1 ≤ digitize v ∧ digitize v ≤ 500 ∧
      pc_winds (digitize v - 1) ≤ v ∧ v < pc_winds (digitize v)) ∧
    (∀ v : ℚ, 50 ≤ v → digitize v = 501) ∧
    (∀ (curve : List (ℚ × ℚ)) (v : ℚ), 0 ≤ v →
      convert_one curve v =
        (pc_power curve (min 500 (digitize v) - 1) +
          pc_power curve (min 500 (digitize v))) / 2) ∧
    (∃ (curve : List (ℚ × ℚ)) (v : ℚ), 0 ≤ v ∧
      convert_one curve v ≠ np_interp v curve) := by
  refine ⟨⟨by norm_num [pc_winds], by norm_num [pc_winds], ?_⟩, fun _ _ => rfl,
    fun x x0 y0 rest h => np_interp_left x x0 y0 rest h,
    fun curve x xl yl hs hl hx => np_interp_right curve x xl yl hs hl hx,
    fun v h0 h50 => ⟨digitize_pos v h0, digitize_le_500 v h50,
      digitize_lower v (digitize_pos v h0), digitize_upper v (digitize_le_500 v h50)⟩,
    fun v hv => digitize_of_ge_50 v hv,
    fun curve v hv => convert_one_midpoint curve v hv,
    demoCurve, 0, le_rfl, ?_⟩
  · intro i _
    unfold pc_winds
    push_cast
    ring
  · rw [convert_one_demo_0, np_interp_demo_at_0]
    norm_num

/-- Witness for C1: the hypotheses of each conditional conjunct hold at
concrete inputs. -/
theorem C1_wind_conversion_witness :
    np_interp (-3) [((0 : ℚ), (5 : ℚ)), (50, 1)] = 5 ∧
    np_interp 60 demoCurve = 1 ∧
    (1 ≤ digitize (1 / 4) ∧ digitize (1 / 4) ≤ 500 ∧
      pc_winds (digitize (1 / 4) - 1) ≤ 1 / 4 ∧ (1 / 4 : ℚ) < pc_winds (digitize (1 / 4))) ∧
    digitize 50 = 501 ∧
    convert_one demoCurve (1 / 4) =
      (pc_power demoCurve (min 500 (digitize (1 / 4)) - 1) +
        pc_power demoCurve (min 500 (digitize (1 / 4)))) / 2 := by
  obtain ⟨-, -, hleft, hright, hbin, htop, hmid, -⟩ := C1_wind_conversion
  exact ⟨hleft (-3) 0 5 [(50, 1)] (by norm_num),
    hright demoCurve 60 50 1 demoCurve_sorted demoCurve_getLast (by norm_num),
    hbin (1 / 4) (by norm_num) (by norm_num),
    htop 50 le_rfl,
    hmid demoCurve (1 / 4) (by norm_num)⟩

/-- Counterexample to claim C2 as stated: for the fixture curve, a wind speed
of 0 yields `1/1000`, which is not the grid value `0` at grid point 0, and a
wind speed of exactly 50 yields `999/1000`, not the last grid value `1`. -/
theorem C2_counterexample :
    convert_to_windpower demoCurve [0, 50] = [1 / 1000, 999 / 1000] ∧
    pc_power demoCurve 0 = 0 ∧ pc_power demoCurve 500 = 1 ∧
    (1 / 1000 : ℚ) ≠ 0 ∧ (999 / 1000 : ℚ) ≠ 1 := by
  refine ⟨?_, pc_power_demo_0, pc_power_demo_500, by norm_num, by norm_num⟩
  simp [convert_to_windpower, convert_one_demo_0, convert_one_demo_50]

/-- Claim C2 (amended): for every power curve, a wind-speed observation of 0
yields the AVERAGE of the interpolation grid's capacity-factor values at grid
points 0 and 1, and every observation ≥ 50 yields the average of the grid
values at points 499 and 500. -/
theorem C2_boundary_bins (curve : List (ℚ × ℚ)) :
    convert_one curve 0 = (pc_power curve 0 + pc_power curve 1) / 2 ∧
    ∀ v : ℚ, 50 ≤ v → convert_one curve v = (pc_power curve 499 + pc_power curve 500) / 2 := by
  constructor
  · simp [convert_one, digitize_zero]
  · intro v hv
    simp [convert_one, digitize_of_ge_50 v hv]

/-- Witness for the amended C2 at the fixture curve and `v = 50`. -/
theorem C2_boundary_bins_witness :
    convert_one demoCurve 0 = (pc_power demoCurve 0 + pc_power demoCurve 1) / 2 ∧
    convert_one demoCurve 50 = (pc_power demoCurve 499 + pc_power demoCurve 500) / 2 :=
  ⟨(C2_boundary_bins demoCurve).1, (C2_boundary_bins demoCurve).2 50 le_rfl⟩

/-- Claim C10: a wind-speed observation strictly below 0 digitizes to bin
index 0, and the returned capacity factor is the average of the grid's LAST
capacity-factor value and its first (the numpy index `-1` wraps to the end of
the array) — not a clamp to the grid's first value, as the fixture curve
shows. -/
theorem C10_negative_wind :
    (∀ v : ℚ, v < 0 → digitize v = 0) ∧
    (∀ (curve : List (ℚ × ℚ)) (v : ℚ), v < 0 →
      convert_one curve v = (pc_power curve 500 + pc_power curve 0) / 2) ∧
    convert_one demoCurve (-1) ≠ pc_power demoCurve 0 := by
  refine ⟨fun v hv => digitize_neg v hv, ?_, ?_⟩
  · intro curve v hv
    simp [convert_one, digitize_neg v hv]
  · have h : convert_one demoCurve (-1) = (pc_power demoCurve 500 + pc_power demoCurve 0) / 2 := by
      simp [convert_one, digitize_neg (-1) (by norm_num)]
    rw [h, pc_power_demo_0, pc_power_demo_500]
    norm_num

/-- Witness for C10 at `v = -1` and the fixture curve. -/
theorem C10_negative_wind_witness :
    digitize (-1) = 0 ∧
    convert_one demoCurve (-1) = (pc_power demoCurve 500 + pc_power demoCurve 0) / 2 :=
  ⟨C10_negative_wind.1 (-1) (by norm_num), C10_negative_wind.2.1 demoCurve (-1) (by norm_num)⟩

/-! ### Inflow reconstruction lemmas -/

lemma pd_diff_length (s : List ℚ) : (pd_diff s).length = s.length := by
  cases s with
  | nil => rfl
  | cons x xs => simp [pd_diff]

lemma pd_shift_m1_length (l : List (Option ℚ)) : (pd_shift_m1 l).length = l.length := by
  cases l with
  | nil => rfl
  | cons x xs => simp [pd_shift_m1]

lemma inflow_calc_length (gen sto : List ℚ) :
    (inflow_calc gen sto).length = min gen.length sto.length := by
  simp [inflow_calc, pd_shift_m1_length, pd_diff_length]

lemma inflow_calc_cons (g s1 s2 : ℚ) (gen sto : List ℚ) :
    inflow_calc (g :: gen) (s1 :: s2 :: sto) =
      some (g + (s2 - s1)) :: inflow_calc gen (s2 :: sto) := by
  simp [inflow_calc, pd_diff, pd_shift_m1]

lemma inflow_calc_single (g s : ℚ) : inflow_calc [g] [s] = [none] := rfl

lemma inflow_calc_get (gen sto : List ℚ) (h : gen.length = sto.length) :
    ∀ i, i + 1 < sto.length →
      (inflow_calc gen sto)[i]? =
        some (some (gen.getD i 0 + (sto.getD (i + 1) 0 - sto.getD i 0))) := by
  induction gen generalizing sto with
  | nil =>
    cases sto with
    | nil => intro i hi; simp at hi
    | cons s sto' => simp at h
  | cons g gen ih =>
    cases sto with
    | nil => simp at h
    | cons s1 sto' =>
      cases sto' with
      | nil =>
        intro i hi
        simp at hi
      | cons s2 sto'' =>
        intro i hi
        rw [inflow_calc_cons]
        cases i with
        | zero => simp
        | succ i =>
          simp only [List.getElem?_cons_succ, List.getD_cons_succ]
          exact ih (s2 :: sto'') (by simpa using h) i (by simpa using hi)

lemma inflow_calc_last (gen sto : List ℚ) (h : gen.length = sto.length) (hne : gen ≠ []) :
    (inflow_calc gen sto).getLast? = some none := by
  induction gen generalizing sto with
  | nil => exact absurd rfl hne
  | cons g gen ih =>
    cases sto with
    | nil => simp at h
    | cons s1 sto' =>
      cases sto' with
      | nil =>
        have hg : gen = [] := by simpa using h
        subst hg
        rfl
      | cons s2 sto'' =>
        have hlen : gen.length = (s2 :: sto'').length := by simpa using h
        have hgen : gen ≠ [] := by
          intro hg
          rw [hg] at hlen
          simp at hlen
        rw [inflow_calc_cons]
        have hne2 : inflow_calc gen (s2 :: sto'') ≠ [] := by
          have hl := inflow_calc_length gen (s2 :: sto'')
          have hg1 : 0 < gen.length := List.length_pos.mpr hgen
          intro he
          rw [he] at hl
          simp at hl
          omega
        obtain ⟨y, ys, hys⟩ := List.exists_cons_of_ne_nil hne2
        rw [hys, List.getLast?_cons_cons, ← hys]
        exact ih (s2 :: sto'') hlen hgen

/-- Claim C3: inflow for each period is that period's (group-summed)
generation plus the storage difference of the next period shifted backward by
one; on the fixture with generation `[10,10,10]` and storage `[100,90,70]`
the first inflow is `10 + (90 - 100) = 0`; and the last period's delta, hence
inflow, is null (`none`) rather than an error. -/
theorem C3_inflow_reconstruction :
    (∀ (g s1 s2 : ℚ) (gen sto : List ℚ),
      inflow_calc (g :: gen) (s1 :: s2 :: sto) =
        some (g + (s2 - s1)) :: inflow_calc gen (s2 :: sto)) ∧
    (∀ gen sto : List ℚ, gen.length = sto.length →
      ∀ i, i + 1 < sto.length →
        (inflow_calc gen sto)[i]? =
          some (some (gen.getD i 0 + (sto.getD (i + 1) 0 - sto.getD i 0)))) ∧
    (∀ gen sto : List ℚ, gen.length = sto.length → gen ≠ [] →
      (inflow_calc gen sto).getLast? = some none) ∧
    inflow_calc [10, 10, 10] [100, 90, 70] = [some 0, some (-10), none] := by
  refine ⟨inflow_calc_cons, inflow_calc_get, inflow_calc_last, ?_⟩
  rw [inflow_calc_cons, inflow_calc_cons, inflow_calc_single]
  norm_num

/-- Witness for C3: the indexed formula and the boundary null, applied to the
spec's 3-period fixture. -/
theorem C3_inflow_reconstruction_witness :
    (inflow_calc [(10 : ℚ), 10, 10] [100, 90, 70])[0]? = some (some 0) ∧
    (inflow_calc [(10 : ℚ), 10, 10] [100, 90, 70]).getLast? = some none := by
  obtain ⟨-, hget, hlast, -⟩ := C3_inflow_reconstruction
  constructor
  · have h := hget [10, 10, 10] [100, 90, 70] rfl 0 (by norm_num)
    norm_num at h
    exact h
  · exact hlast [10, 10, 10] [100, 90, 70] rfl (by simp)

/-! ### Demand-model and solar-model lemmas -/

lemma cool_eq_max (t : ℚ) : (if t < 24 then (0 : ℚ) else t - 24) = max 0 (t - 24) := by
  rcases lt_or_le t 24 with h | h
  · rw [if_pos h, eq_comm, max_eq_left]
    linarith
  · rw [if_neg (not_lt.mpr h), eq_comm, max_eq_right]
    linarith

lemma heat_eq_max (t : ℚ) : (if t > 15 then (0 : ℚ) else 15 - t) = max 0 (15 - t) := by
  rcases lt_or_le (15 : ℚ) t with h | h
  · rw [if_pos h, eq_comm, max_eq_left]
    linarith
  · rw [if_neg (not_lt.mpr h), eq_comm, max_eq_right]
    linarith

lemma normLoad_eq_dot (coefs fs : List (String × ℚ)) :
    normLoad coefs fs = (fs.map (fun p => p.2 * (lookupQ p.1 coefs).getD 0)).sum := by
  unfold normLoad
  congr 1
  apply List.map_congr_left
  intro p _
  cases h : lookupQ p.1 coefs with
  | none => simp [h]
  | some c => simp [h]

lemma kShift_id (tmp : List ℚ) (m : ℚ) (h : seriesMin tmp = some m) (hm : m ≤ 200) :
    kShift tmp = tmp := by
  simp only [kShift, h]
  rw [if_neg (not_lt.mpr hm)]

lemma kShift_shift (tmp : List ℚ) (m : ℚ) (h : seriesMin tmp = some m) (hm : 200 < m) :
    kShift tmp = tmp.map (fun x => x - 273.15) := by
  simp only [kShift, h]
  rw [if_pos hm]

lemma getElem?_zip_eq {α β : Type} (l1 : List α) (l2 : List β) (i : ℕ) (a : α) (b : β)
    (h1 : l1[i]? = some a) (h2 : l2[i]? = some b) : (l1.zip l2)[i]? = some (a, b) := by
  induction l1 generalizing l2 i with
  | nil => simp at h1
  | cons x xs ih =>
    cases l2 with
    | nil => simp at h2
    | cons y ys =>
      cases i with
      | zero =>
        simp only [List.getElem?_cons_zero, Option.some_inj] at h1 h2
        subst h1
        subst h2
        simp [List.zip_cons_cons]
      | succ i =>
        simp only [List.getElem?_cons_succ] at h1 h2 ⊢
        rw [List.zip_cons_cons]
        simpa using ih ys i h1 h2

lemma demandCore_get (tmp ssr : List ℚ) (stamps : List Stamp) (coefs : List (String × ℚ))
    (min_load max_load : ℚ) (i : ℕ) (t s : ℚ) (st : Stamp)
    (h1 : tmp[i]? = some t) (h2 : ssr[i]? = some s) (h3 : stamps[i]? = some st) :
    (demandCore tmp ssr stamps coefs min_load max_load)[i]? =
      some (normLoad coefs (features st t s) * (max_load - min_load) + min_load) := by
  unfold demandCore
  rw [List.getElem?_map, getElem?_zip_eq _ _ i (t, s) st (getElem?_zip_eq _ _ i t s h1 h2) h3]
  rfl

lemma pvCore_get (tmp ssr : List ℚ) (i : ℕ) (t s : ℚ)
    (h1 : tmp[i]? = some t) (h2 : ssr[i]? = some s) :
    (pvCore tmp ssr)[i]? = some (pv_cf_point t s) := by
  unfold pvCore
  rw [List.getElem?_map, getElem?_zip_eq _ _ i t s h1 h2]
  rfl

/-- Claim C4: for every timestamp, the cooling feature is `max 0 (t - 24)`,
the heating feature is `max 0 (15 - t)`, the normalized load is the dot
product of the feature vector with the supplied coefficients, and the
returned value is `normalized * (max_load - min_load) + min_load`. -/
theorem C4_demand_regression :
    (∀ (st : Stamp) (t s : ℚ),
      lookupQ "cool" (features st t s) = some (max 0 (t - 24))) ∧
    (∀ (st : Stamp) (t s : ℚ),
      lookupQ "heat" (features st t s) = some (max 0 (15 - t))) ∧
    (∀ coefs fs : List (String × ℚ),
      normLoad coefs fs = (fs.map (fun p => p.2 * (lookupQ p.1 coefs).getD 0)).sum) ∧
    (∀ (tmp ssr : List ℚ) (stamps : List Stamp) (coefs : List (String × ℚ))
      (min_load max_load m : ℚ), seriesMin tmp = some m → m ≤ 200 →
      ∀ (i : ℕ) (t s : ℚ) (st : Stamp),
        tmp[i]? = some t → ssr[i]? = some s → stamps[i]? = some st →
        (get_demand_met tmp ssr stamps coefs min_load max_load)[i]? =
          some (normLoad coefs (features st t s) * (max_load - min_load) + min_load)) := by
  refine ⟨?_, ?_, normLoad_eq_dot, ?_⟩
  · intro st t s
    simp [features, lookupQ, cool_eq_max]
  · intro st t s
    simp [features, lookupQ, heat_eq_max]
  · intro tmp ssr stamps coefs min_load max_load m hmin hm i t s st h1 h2 h3
    unfold get_demand_met
    rw [kShift_id tmp m hmin hm]
    exact demandCore_get tmp ssr stamps coefs min_load max_load i t s st h1 h2 h3

/-- Witness for C4 at a concrete one-element input. -/
theorem C4_demand_regression_witness :
    (get_demand_met [20] [3] [⟨2, 1⟩] [] 1 5)[0]? =
      some (normLoad [] (features ⟨2, 1⟩ 20 3) * (5 - 1) + 1) :=
  C4_demand_regression.2.2.2 [20] [3] [⟨2, 1⟩] [] 1 5 20 rfl (by norm_num) 0 20 3 ⟨2, 1⟩
    rfl rfl rfl

/-- Claim C5: when the minimum of the temperature series exceeds 200, both
the demand model and the solar model shift the series by `-273.15` exactly
once and return the no-shift computation applied to the shifted series; when
the minimum is at most 200, no shift is applied. -/
theorem C5_kelvin_heuristic :
    (∀ (tmp ssr : List ℚ) (stamps : List Stamp) (coefs : List (String × ℚ))
      (min_load max_load m : ℚ), seriesMin tmp = some m → 200 < m →
      get_demand_met tmp ssr stamps coefs min_load max_load =
        demandCore (tmp.map (fun x => x - 273.15)) ssr stamps coefs min_load max_load ∧
      get_PV_cf tmp ssr = pvCore (tmp.map (fun x => x - 273.15)) ssr) ∧
    (∀ (tmp ssr : List ℚ) (stamps : List Stamp) (coefs : List (String × ℚ))
      (min_load max_load m : ℚ), seriesMin tmp = some m → m ≤ 200 →
      get_demand_met tmp ssr stamps coefs min_load max_load =
        demandCore tmp ssr stamps coefs min_load max_load ∧
      get_PV_cf tmp ssr = pvCore tmp ssr) := by
  constructor
  · intro tmp ssr stamps coefs min_load max_load m hmin hm
    constructor
    · unfold get_demand_met
      rw [kShift_shift tmp m hmin hm]
    · unfold get_PV_cf
      rw [kShift_shift tmp m hmin hm]
  · intro tmp ssr stamps coefs min_load max_load m hmin hm
    constructor
    · unfold get_demand_met
      rw [kShift_id tmp m hmin hm]
    · unfold get_PV_cf
      rw [kShift_id tmp m hmin hm]

/-- Witness for C5: a Kelvin-range series (minimum 300) and a Celsius-range
series (minimum 20). -/
theorem C5_kelvin_heuristic_witness :
    (get_demand_met [300] [0] [⟨0, 0⟩] [] 0 1 =
      demandCore ([(300 : ℚ)].map (fun x => x - 273.15)) [0] [⟨0, 0⟩] [] 0 1 ∧
     get_PV_cf [300] [1000] = pvCore ([(300 : ℚ)].map (fun x => x - 273.15)) [1000]) ∧
    (get_demand_met [20] [0] [⟨0, 0⟩] [] 0 1 = demandCore [20] [0] [⟨0, 0⟩] [] 0 1 ∧
     get_PV_cf [20] [1000] = pvCore [20] [1000]) :=
  ⟨⟨(C5_kelvin_heuristic.1 [300] [0] [⟨0, 0⟩] [] 0 1 300 rfl (by norm_num)).1,
    (C5_kelvin_heuristic.1 [300] [1000] [⟨0, 0⟩] [] 0 1 300 rfl (by norm_num)).2⟩,
   ⟨(C5_kelvin_heuristic.2 [20] [0] [⟨0, 0⟩] [] 0 1 20 rfl (by norm_num)).1,
    (C5_kelvin_heuristic.2 [20] [1000] [⟨0, 0⟩] [] 0 1 20 rfl (by norm_num)).2⟩⟩

/-- Claim C6: the solar model computes
`eff_ref * (1 - beta_ref * (t - T_ref)) * (s / G_ref)` with `T_ref = 25`,
`eff_ref = 0.9`, `beta_ref = 0.0042`, `G_ref = 1000`; irradiance 0 gives
capacity factor 0 for any temperature, and `t = 25`, `s = 1000` gives
exactly `0.9`. -/
theorem C6_solar_model :
    (∀ t s : ℚ, pv_cf_point t s = eff_ref * (1 - beta_ref * (t - T_ref)) * (s / G_ref)) ∧
    (T_ref = 25 ∧ eff_ref = 9 / 10 ∧ beta_ref = 42 / 10000 ∧ G_ref = 1000) ∧
    (∀ t : ℚ, pv_cf_point t 0 = 0) ∧
    pv_cf_point 25 1000 = 9 / 10 ∧
    (∀ (tmp ssr : List ℚ) (m : ℚ), seriesMin tmp = some m → m ≤ 200 →
      ∀ (i : ℕ) (t s : ℚ), tmp[i]? = some t → ssr[i]? = some s →
        (get_PV_cf tmp ssr)[i]? =
          some (eff_ref * (1 - beta_ref * (t - T_ref)) * (s / G_ref))) := by
  refine ⟨fun t s => rfl, ⟨rfl, by norm_num [eff_ref], by norm_num [beta_ref], rfl⟩,
    ?_, ?_, ?_⟩
  · intro t
    simp [pv_cf_point]
  · norm_num [pv_cf_point, eff_ref, beta_ref, T_ref, G_ref]
  · intro tmp ssr m hmin hm i t s h1 h2
    unfold get_PV_cf
    rw [kShift_id tmp m hmin hm]
    exact pvCore_get tmp ssr i t s h1 h2

/-- Witness for C6 at the reference point `t = 25`, `s = 1000`. -/
theorem C6_solar_model_witness :
    (get_PV_cf [25] [1000])[0]? =
      some (eff_ref * (1 - beta_ref * ((25 : ℚ) - T_ref)) * ((1000 : ℚ) / G_ref)) :=
  C6_solar_model.2.2.2.2 [25] [1000] 25 rfl (by norm_num) 0 25 1000 rfl rfl

/-! ### Coefficient alignment: missing keys, dead keys, bounds -/

lemma normLoad_cons (coefs : List (String × ℚ)) (p : String × ℚ) (fs : List (String × ℚ)) :
    normLoad coefs (p :: fs) =
      (match lookupQ p.1 coefs with
        | some c => p.2 * c
        | none => 0) + normLoad coefs fs := by
  simp [normLoad]

lemma normLoad_filter (coefs fs : List (String × ℚ)) :
    normLoad coefs fs =
      normLoad coefs (fs.filter (fun p => (lookupQ p.1 coefs).isSome)) := by
  induction fs with
  | nil => rfl
  | cons p fs ih =>
    cases h : lookupQ p.1 coefs with
    | none => simp [List.filter_cons, h, normLoad_cons, ih]
    | some c => simp [List.filter_cons, h, normLoad_cons, ih]

lemma kShift_length (tmp : List ℚ) : (kShift tmp).length = tmp.length := by
  cases hm : seriesMin tmp with
  | none => simp [kShift, hm]
  | some m =>
    simp only [kShift, hm]
    split <;> simp

lemma get_demand_met_length (tmp ssr : List ℚ) (stamps : List Stamp)
    (coefs : List (String × ℚ)) (min_load max_load : ℚ) :
    (get_demand_met tmp ssr stamps coefs min_load max_load).length =
      min (min tmp.length ssr.length) stamps.length := by
  simp [get_demand_met, demandCore, kShift_length]

/-- Counterexample to claim C7 as stated: a coefficient mapping that is
missing `cool` (and almost every other expected key) does not make the
computation fail — the model returns a concrete value. -/
theorem C7_counterexample :
    lookupQ "cool" [("heat", (1 : ℚ))] = none ∧
    get_demand_met [10] [0] [⟨0, 0⟩] [("heat", 1)] 0 1 = [5] := by
  constructor
  · simp [lookupQ]
  · norm_num [get_demand_met, demandCore, kShift, seriesMin, normLoad, features, lookupQ, ind]
    simp
    try norm_num

/-- Claim C7 (amended): a coefficient mapping missing expected predictor keys
does not raise a lookup failure; the model still returns a series of the
expected length, and features whose label has no coefficient are silently
skipped (contribute 0 to the weighted sum). -/
theorem C7_missing_keys :
    (∀ (tmp ssr : List ℚ) (stamps : List Stamp) (coefs : List (String × ℚ))
      (min_load max_load : ℚ),
      (get_demand_met tmp ssr stamps coefs min_load max_load).length =
        min (min tmp.length ssr.length) stamps.length) ∧
    (∀ coefs fs : List (String × ℚ),
      normLoad coefs fs =
        normLoad coefs (fs.filter (fun p => (lookupQ p.1 coefs).isSome))) :=
  ⟨get_demand_met_length, normLoad_filter⟩

lemma ind_nonneg (b : Prop) [Decidable b] : (0 : ℚ) ≤ ind b := by
  unfold ind
  split <;> norm_num

lemma features_nonneg (st : Stamp) (t s : ℚ) (hs : 0 ≤ s) :
    ∀ p ∈ features st t s, 0 ≤ p.2 := by
  simp only [features, List.forall_mem_cons, List.forall_mem_nil]
  exact ⟨by split <;> linarith, by split <;> linarith, hs,
    ind_nonneg _, ind_nonneg _, ind_nonneg _, ind_nonneg _, ind_nonneg _, ind_nonneg _,
    ind_nonneg _, ind_nonneg _, ind_nonneg _, ind_nonneg _, ind_nonneg _, ind_nonneg _,
    ind_nonneg _, ind_nonneg _, ind_nonneg _, ind_nonneg _, ind_nonneg _, ind_nonneg _,
    ind_nonneg _, ind_nonneg _, ind_nonneg _, ind_nonneg _, ind_nonneg _,
    ind_nonneg _, ind_nonneg _, ind_nonneg _, ind_nonneg _, ind_nonneg _,
    ind_nonneg _, ind_nonneg _,
    le_refl 0, by simp⟩

lemma lookupQ_getD_bounds (coefs : List (String × ℚ))
    (hc : ∀ p ∈ coefs, 0 ≤ p.2 ∧ p.2 ≤ 1) (n : String) :
    0 ≤ (lookupQ n coefs).getD 0 ∧ (lookupQ n coefs).getD 0 ≤ 1 := by
  induction coefs with
  | nil => norm_num [lookupQ]
  | cons p ps ih =>
    simp only [lookupQ]
    by_cases h : p.1 = n
    · rw [if_pos h]
      simpa using hc p (List.mem_cons_self p ps)
    · rw [if_neg h]
      exact ih (fun q hq => hc q (List.mem_cons_of_mem p hq))

/-- Counterexample to claim C8 as stated: all supplied coefficients are
non-negative (`wday01 ↦ 2`) and the features at the single timestamp sum to
1 ≤ 1, yet the output value 2 exceeds `max_load = 1`. -/
theorem C8_counterexample :
    (∀ p ∈ [("wday01", (2 : ℚ))], 0 ≤ p.2) ∧
    ((features ⟨0, 0⟩ 20 0).map Prod.snd).sum ≤ 1 ∧
    get_demand_met [20] [0] [⟨0, 0⟩] [("wday01", 2)] 0 1 = [2] ∧
    ¬((2 : ℚ) ≤ 1) := by
  refine ⟨by norm_num, ?_, ?_, by norm_num⟩
  · norm_num [features, ind]
  · norm_num [get_demand_met, demandCore, kShift, seriesMin, normLoad, features, lookupQ, ind]
    simp
    try norm_num

/-- Claim C8 (amended): when every supplied coefficient lies in `[0, 1]`, the
irradiance values are non-negative, the per-timestamp feature values sum to at
most 1, and `min_load ≤ max_load`, every value of the returned demand series
lies in `[min_load, max_load]`. -/
theorem C8_demand_bounded (tmp ssr : List ℚ) (stamps : List Stamp)
    (coefs : List (String × ℚ)) (min_load max_load : ℚ)
    (hc : ∀ p ∈ coefs, 0 ≤ p.2 ∧ p.2 ≤ 1)
    (hs : ∀ s ∈ ssr, 0 ≤ s)
    (hsum : ∀ x ∈ ((kShift tmp).zip ssr).zip stamps,
      ((features x.2 x.1.1 x.1.2).map Prod.snd).sum ≤ 1)
    (hml : min_load ≤ max_load) :
    ∀ y ∈ get_demand_met tmp ssr stamps coefs min_load max_load,
      min_load ≤ y ∧ y ≤ max_load := by
  intro y hy
  unfold get_demand_met demandCore at hy
  obtain ⟨⟨⟨t, s⟩, st⟩, hx, rfl⟩ := List.mem_map.mp hy
  dsimp only
  have hsx : 0 ≤ s := hs s (List.of_mem_zip (List.of_mem_zip hx).1).2
  have hnn := features_nonneg st t s hsx
  have h0 : 0 ≤ normLoad coefs (features st t s) := by
    rw [normLoad_eq_dot]
    apply List.sum_nonneg
    intro q hq
    obtain ⟨p, hp, rfl⟩ := List.mem_map.mp hq
    exact mul_nonneg (hnn p hp) (lookupQ_getD_bounds coefs hc p.1).1
  have h1 : normLoad coefs (features st t s) ≤ 1 := by
    rw [normLoad_eq_dot]
    calc ((features st t s).map (fun p => p.2 * (lookupQ p.1 coefs).getD 0)).sum
        ≤ ((features st t s).map Prod.snd).sum :=
          List.sum_le_sum (fun p hp =>
            mul_le_of_le_one_right (hnn p hp) (lookupQ_getD_bounds coefs hc p.1).2)
      _ ≤ 1 := hsum ((t, s), st) hx
  constructor
  · nlinarith
  · nlinarith

/-- Witness for the amended C8 on a concrete one-element input whose output
value is 7, the top of the requested range `[3, 7]`. -/
theorem C8_demand_bounded_witness :
    get_demand_met [20] [0] [⟨0, 0⟩] [("wday01", (1 : ℚ))] 3 7 = [7] ∧
    ((3 : ℚ) ≤ 7 ∧ (7 : ℚ) ≤ 7) := by
  have heval : get_demand_met [20] [0] [⟨0, 0⟩] [("wday01", (1 : ℚ))] 3 7 = [7] := by
    norm_num [get_demand_met, demandCore, kShift, seriesMin, normLoad, features, lookupQ, ind]
    simp
    try norm_num
  refine ⟨heval, ?_⟩
  apply C8_demand_bounded [20] [0] [⟨0, 0⟩] [("wday01", (1 : ℚ))] 3 7
  · norm_num
  · intro s hsm
    simp only [List.mem_singleton] at hsm
    subst hsm
    norm_num
  · intro x hx
    have hk : kShift [20] = [20] := kShift_id [20] 20 rfl (by norm_num)
    rw [hk] at hx
    simp only [List.zip_cons_cons, List.zip_nil_left, List.zip_nil_right,
      List.mem_singleton] at hx
    subst hx
    norm_num [features, ind]
  · norm_num
  · rw [heval]
    simp

lemma normLoad_ext (coefs coefs' fs : List (String × ℚ))
    (h : ∀ p ∈ fs, lookupQ p.1 coefs = lookupQ p.1 coefs') :
    normLoad coefs fs = normLoad coefs' fs := by
  unfold normLoad
  congr 1
  apply List.map_congr_left
  intro p hp
  rw [h p hp]

lemma features_no_wday05 (st : Stamp) (t s : ℚ) :
    ∀ p ∈ features st t s, p.1 ≠ "wday05" := by
  simp [features]

/-- Claim C9: two coefficient mappings that agree everywhere except on
`wday05` produce identical demand output: the Friday column is built under
the misspelt name `wzoneday05`, so the `wday05` coefficient never aligns with
any feature column. -/
theorem C9_wday05_never_used :
    (∀ (tmp ssr : List ℚ) (stamps : List Stamp) (coefs coefs' : List (String × ℚ))
      (min_load max_load : ℚ),
      (∀ n : String, n ≠ "wday05" → lookupQ n coefs = lookupQ n coefs') →
      get_demand_met tmp ssr stamps coefs min_load max_load =
        get_demand_met tmp ssr stamps coefs' min_load max_load) ∧
    (∀ (st : Stamp) (t s : ℚ),
      ("wzoneday05", ind (st.dayofweek = 4)) ∈ features st t s) ∧
    (∀ (st : Stamp) (t s : ℚ), "wday05" ∉ (features st t s).map Prod.fst) := by
  refine ⟨?_, ?_, ?_⟩
  · intro tmp ssr stamps coefs coefs' min_load max_load h
    unfold get_demand_met demandCore
    apply List.map_congr_left
    intro x _
    have he := normLoad_ext coefs coefs' (features x.2 x.1.1 x.1.2)
      (fun p hp => h p.1 (features_no_wday05 x.2 x.1.1 x.1.2 p hp))
    rw [he]
  · intro st t s
    simp [features]
  · intro st t s
    simp [features]

/-- Witness for C9: changing only the `wday05` coefficient (1 versus 2) on a
Friday timestamp leaves the output unchanged. -/
theorem C9_wday05_never_used_witness :
    get_demand_met [20] [0] [⟨0, 4⟩] [("wday05", 1)] 0 1 =
      get_demand_met [20] [0] [⟨0, 4⟩] [("wday05", 2)] 0 1 := by
  apply C9_wday05_never_used.1
  intro n hn
  simp only [lookupQ]
  rw [if_neg (fun h => hn h.symm), if_neg (fun h => hn h.symm)]

end Metenergy
